import Mathlib

/-!
Formal model of the mknm_os kernel (shallow embedding of selected components)
and proofs about the behaviour of its timer subsystem, kernel event loop,
frame allocator, slab allocator, message queue, xHCI producer rings, USB
control-request pipeline, configuration-descriptor reader and broadcast latch.

Each Lean definition embeds the Rust item of the same (or closest legal) name
from the repository sources; comments reference the embedded file.
-/

namespace Mknm

/-! ## Timer subsystem (src/kernel/src/timer.rs)

`TIMER_FREQ = 100`, `TASK_TIMER_VALUE = u64::MIN = 0`,
`TASK_TIMER_PERIOD = TIMER_FREQ / 50 = 2`.

The software timers live in a `BinaryHeap<Timer>` ordered by earliest
`timeout` (the `Ord` impl reverses the `timeout` comparison).  We model the
heap as a multiset represented by a `List`; `popMin` removes the first
element of minimal `timeout`, which determinises the (unspecified) tie order
of the binary heap.  None of the proved properties depend on the tie order.
-/

def TIMER_FREQ : Nat := 100

def TASK_TIMER_VALUE : Nat := 0

def TASK_TIMER_PERIOD : Nat := TIMER_FREQ / 50

/-- Embeds `struct Timer { timeout: u64, value: u64 }`. -/
structure Timer where
  timeout : Nat
  value : Nat
deriving DecidableEq, Repr, Inhabited

/-- Embeds `Timer::is_over`: `self.timeout < current_time`. -/
def Timer.is_over (t : Timer) (current_time : Nat) : Bool :=
  t.timeout < current_time

/-- Remove the first element of minimal `timeout` from the list (the element
`BinaryHeap::peek`/`pop` would return, with ties determinised to the earliest
list position). -/
def popMin : List Timer → Option (Timer × List Timer)
  | [] => none
  | t :: ts =>
    match popMin ts with
    | none => some (t, ts)
    | some (m, rest) =>
      if t.timeout ≤ m.timeout then some (t, ts) else some (m, t :: rest)

theorem popMin_none {l : List Timer} (h : popMin l = none) : l = [] := by
  cases l with
  | nil => rfl
  | cons t ts =>
    cases hp : popMin ts with
    | none => simp [popMin, hp] at h
    | some p =>
      obtain ⟨m, rest⟩ := p
      simp only [popMin, hp] at h
      by_cases hle : t.timeout ≤ m.timeout
      · rw [if_pos hle] at h; exact absurd h (by simp)
      · rw [if_neg hle] at h; exact absurd h (by simp)

theorem popMin_perm {l : List Timer} {m : Timer} {rest : List Timer}
    (h : popMin l = some (m, rest)) : l.Perm (m :: rest) := by
  induction l generalizing m rest with
  | nil => simp [popMin] at h
  | cons t ts ih =>
    cases hp : popMin ts with
    | none =>
      simp only [popMin, hp] at h
      obtain ⟨rfl, rfl⟩ := by simpa using h
      exact List.Perm.refl _
    | some p =>
      obtain ⟨m', rest'⟩ := p
      simp only [popMin, hp] at h
      by_cases hle : t.timeout ≤ m'.timeout
      · rw [if_pos hle] at h
        obtain ⟨rfl, rfl⟩ := by simpa using h
        exact List.Perm.refl _
      · rw [if_neg hle] at h
        obtain ⟨rfl, rfl⟩ := by simpa using h
        exact ((ih hp).cons t).trans (List.Perm.swap m' t rest')

/-- Number of elements of a timer list satisfying `timeout < now`:
the termination measure of the `while` loop in `TimerManager::tick`. -/
def overdueCount (now : Nat) (ts : List Timer) : Nat :=
  (ts.filter (fun t => t.timeout < now)).length

theorem popMin_overdueCount {l : List Timer} {m : Timer} {rest : List Timer}
    (h : popMin l = some (m, rest)) (hm : m.timeout < now) :
    overdueCount now l = overdueCount now rest + 1 := by
  have hperm := (popMin_perm h).filter (fun t => decide (t.timeout < now))
  have := hperm.length_eq
  simpa [overdueCount, List.filter, hm] using this

/-- Result of `TimerManager::tick`'s while loop: the returned
`task_timer_timeout` flag, the heap after the loop, the values pushed as
`TimerTimeout` messages (in push order) and the full list of popped timers
(in pop order). -/
structure TickOut where
  task_timer_fired : Bool
  timers : List Timer
  msgs : List Nat
  popped : List Timer
deriving DecidableEq, Repr, Inhabited

/-- Embeds the `while` loop of `TimerManager::tick` (timer.rs lines 64-74]:
while the heap's top satisfies `is_over(tick)`, pop it; the task-timer
re-enqueues itself at `tick + TASK_TIMER_PERIOD` and sets the flag, any other
timer emits a `TimerTimeout(value)` message. -/
def tickLoop (now : Nat) (timers : List Timer) : TickOut :=
  match hpop : popMin timers with
  | some (top, rest) =>
    if htop : top.timeout < now then
      if top.value = TASK_TIMER_VALUE then
        let r := tickLoop now
          (rest ++ [{ timeout := now + TASK_TIMER_PERIOD, value := TASK_TIMER_VALUE }])
        { r with task_timer_fired := true, popped := top :: r.popped }
      else
        let r := tickLoop now rest
        { r with msgs := top.value :: r.msgs, popped := top :: r.popped }
    else
      { task_timer_fired := false, timers := timers, msgs := [], popped := [] }
  | none => { task_timer_fired := false, timers := timers, msgs := [], popped := [] }
termination_by overdueCount now timers
decreasing_by
  · have := popMin_overdueCount hpop htop
    have hnew : ¬ (now + TASK_TIMER_PERIOD < now) := by omega
    simp only [overdueCount, List.filter_append, List.length_append] at *
    simp [hnew] at *
    omega
  · have := popMin_overdueCount hpop htop
    simp only [overdueCount] at *
    omega

/-- Embeds `struct TimerManager { tick: u64, timers: BinaryHeap<Timer> }`. -/
structure TimerManager where
  tick : Nat
  timers : List Timer
deriving DecidableEq, Repr, Inhabited

/-- Embeds `TimerManager::new`. -/
def TimerManager.new : TimerManager := { tick := 0, timers := [] }

/-- Embeds `TimerManager::add_timer`: pushes onto the heap (multiset insert). -/
def TimerManager.add_timer (s : TimerManager) (timeout value : Nat) : TimerManager :=
  { s with timers := s.timers ++ [{ timeout := timeout, value := value }] }

/-- Embeds `TimerManager::tick(elapsed)`: increment the tick, then run the
pop loop against the incremented tick.  (Named `tickElapsed` because the
field `tick` occupies the Rust method's name.) -/
def TimerManager.tickElapsed (s : TimerManager) (elapsed : Nat) : TimerManager × TickOut :=
  let now := s.tick + elapsed
  let r := tickLoop now s.timers
  ({ tick := now, timers := r.timers }, r)

/-- Embeds `initialize_timer()` (timer.rs lines 125-131): fresh manager,
then `add_timer(tick + TASK_TIMER_PERIOD, TASK_TIMER_VALUE)`. -/
def initialize_timer : TimerManager :=
  let t := TimerManager.new
  t.add_timer (t.tick + TASK_TIMER_PERIOD) TASK_TIMER_VALUE

/-- Number of task-timer entries (value = `TASK_TIMER_VALUE`) in a heap. -/
def sentinelCount (l : List Timer) : Nat :=
  (l.filter (fun t => t.value = TASK_TIMER_VALUE)).length

theorem sentinelCount_perm {l l' : List Timer} (h : l.Perm l') :
    sentinelCount l = sentinelCount l' := by
  unfold sentinelCount
  exact (h.filter _).length_eq

theorem tickLoop_eq_none {now : Nat} {x : List Timer} (hpop : popMin x = none) :
    tickLoop now x = { task_timer_fired := false, timers := x, msgs := [], popped := [] } := by
  rw [tickLoop]
  split
  · next top rest heq => rw [hpop] at heq; exact absurd heq (by simp)
  · rfl

theorem tickLoop_eq_stop {now : Nat} {x : List Timer} {top : Timer} {rest : List Timer}
    (hpop : popMin x = some (top, rest)) (hlt : ¬ top.timeout < now) :
    tickLoop now x = { task_timer_fired := false, timers := x, msgs := [], popped := [] } := by
  rw [tickLoop]
  split
  · next top' rest' heq =>
      rw [hpop] at heq
      obtain ⟨rfl, rfl⟩ : top = top' ∧ rest = rest' := by simpa using heq
      rw [dif_neg hlt]
  · next heq => rw [hpop] at heq

theorem tickLoop_eq_fire {now : Nat} {x : List Timer} {top : Timer} {rest : List Timer}
    (hpop : popMin x = some (top, rest)) (hlt : top.timeout < now)
    (hval : top.value = TASK_TIMER_VALUE) :
    tickLoop now x =
      (let r := tickLoop now
          (rest ++ [{ timeout := now + TASK_TIMER_PERIOD, value := TASK_TIMER_VALUE }])
       { r with task_timer_fired := true, popped := top :: r.popped }) := by
  rw [tickLoop]
  split
  · next top' rest' heq =>
      rw [hpop] at heq
      obtain ⟨rfl, rfl⟩ : top = top' ∧ rest = rest' := by simpa using heq
      rw [dif_pos hlt, if_pos hval]
  · next heq => rw [hpop] at heq; exact absurd heq (by simp)

theorem tickLoop_eq_msg {now : Nat} {x : List Timer} {top : Timer} {rest : List Timer}
    (hpop : popMin x = some (top, rest)) (hlt : top.timeout < now)
    (hval : ¬ top.value = TASK_TIMER_VALUE) :
    tickLoop now x =
      (let r := tickLoop now rest
       { r with msgs := top.value :: r.msgs, popped := top :: r.popped }) := by
  rw [tickLoop]
  split
  · next top' rest' heq =>
      rw [hpop] at heq
      obtain ⟨rfl, rfl⟩ : top = top' ∧ rest = rest' := by simpa using heq
      rw [dif_pos hlt, if_neg hval]
  · next heq => rw [hpop] at heq; exact absurd heq (by simp)

theorem tickLoop_sentinel (now : Nat) (ts : List Timer) :
    sentinelCount (tickLoop now ts).timers = sentinelCount ts := by
  induction ts using tickLoop.induct now with
  | case1 x top rest hpop hlt hval ih =>
    rw [tickLoop_eq_fire hpop hlt hval]
    simp only []
    rw [ih, sentinelCount_perm (popMin_perm hpop)]
    simp [sentinelCount, hval, List.filter_append]
  | case2 x top rest hpop hlt hval ih =>
    rw [tickLoop_eq_msg hpop hlt hval]
    simp only []
    rw [ih, sentinelCount_perm (popMin_perm hpop)]
    simp [sentinelCount, hval]
  | case3 x top rest hpop hlt =>
    rw [tickLoop_eq_stop hpop hlt]
  | case4 x hpop =>
    rw [tickLoop_eq_none hpop]

theorem tickLoop_popped_overdue (now : Nat) (ts : List Timer) :
    ∀ tm ∈ (tickLoop now ts).popped, tm.timeout < now := by
  induction ts using tickLoop.induct now with
  | case1 x top rest hpop hlt hval ih =>
    rw [tickLoop_eq_fire hpop hlt hval]
    intro tm htm
    rcases List.mem_cons.mp htm with rfl | hmem
    · exact hlt
    · exact ih tm hmem
  | case2 x top rest hpop hlt hval ih =>
    rw [tickLoop_eq_msg hpop hlt hval]
    intro tm htm
    rcases List.mem_cons.mp htm with rfl | hmem
    · exact hlt
    · exact ih tm hmem
  | case3 x top rest hpop hlt =>
    rw [tickLoop_eq_stop hpop hlt]
    simp
  | case4 x hpop =>
    rw [tickLoop_eq_none hpop]
    simp

/-- An operation on the timer manager: `on_lapic_interrupt(e)` (which calls
`TimerManager::tick(e)`) or `add_timer(timeout, value)`. -/
inductive TimerOp where
  | tickOp (elapsed : Nat)
  | addTimerOp (timeout value : Nat)
deriving DecidableEq, Repr

def applyTimerOp (s : TimerManager) : TimerOp → TimerManager
  | .tickOp e => (s.tickElapsed e).1
  | .addTimerOp t v => s.add_timer t v

def runTimerOps (s : TimerManager) (ops : List TimerOp) : TimerManager :=
  ops.foldl applyTimerOp s

theorem runTimerOps_sentinel (s : TimerManager) (ops : List TimerOp)
    (hv : ∀ t v, TimerOp.addTimerOp t v ∈ ops → v ≠ TASK_TIMER_VALUE) :
    sentinelCount (runTimerOps s ops).timers = sentinelCount s.timers := by
  induction ops generalizing s with
  | nil => rfl
  | cons op ops ih =>
    have hstep : sentinelCount (applyTimerOp s op).timers = sentinelCount s.timers := by
      cases op with
      | tickOp e => exact tickLoop_sentinel (s.tick + e) s.timers
      | addTimerOp t v =>
        have hne : v ≠ TASK_TIMER_VALUE := hv t v (List.mem_cons_self _ _)
        simp [applyTimerOp, TimerManager.add_timer, sentinelCount, List.filter_append, hne]
    have hv' : ∀ t v, TimerOp.addTimerOp t v ∈ ops → v ≠ TASK_TIMER_VALUE :=
      fun t v hm => hv t v (List.mem_cons_of_mem _ hm)
    calc sentinelCount (runTimerOps (applyTimerOp s op) ops).timers
        = sentinelCount (applyTimerOp s op).timers := ih _ hv'
      _ = sentinelCount s.timers := hstep

/-! ## Kernel message queue and event loop (src/kernel/src/main.rs)

`static EVENTS: LazyInit<MessageQueue<1024>>`; the loop body of
`KernelMain2` drains `TIMER_ELAPSED`, calls the timer tick, pops one
message, dispatches it, and calls `switch_context(&TASK_B_CTX, &mut
TASK_A_CTX)`. -/

/-- Embeds `enum Message { Xhci, TimerTimeout(u64) }`. -/
inductive Message where
  | xhci
  | timerTimeout (v : Nat)
deriving DecidableEq, Repr, Inhabited

/-- Embeds `struct MessageQueue<const N: usize>`; `data` has fixed length
`N` in the source (`data.len()` below is that `N`). -/
structure MessageQueue where
  data : List Message
  read_pos : Nat
  write_pos : Nat
  cnt : Nat
deriving DecidableEq, Repr, Inhabited

/-- Embeds `MessageQueue::new` for capacity `n`. -/
def MessageQueue.new (n : Nat) : MessageQueue :=
  { data := List.replicate n .xhci, read_pos := 0, write_pos := 0, cnt := 0 }

/-- Embeds `MessageQueue::push` (main.rs lines 405-414): full queues refuse
the message with `Err(())`, leaving the receiver untouched. -/
def MessageQueue.push (q : MessageQueue) (msg : Message) : Except Unit Unit × MessageQueue :=
  if q.cnt = q.data.length then
    (.error (), q)
  else
    (.ok (), { q with
      cnt := q.cnt + 1,
      data := q.data.set q.write_pos msg,
      write_pos := (q.write_pos + 1) % q.data.length })

/-- Embeds `MessageQueue::pop` (main.rs lines 416-425). -/
def MessageQueue.pop (q : MessageQueue) : Option Message × MessageQueue :=
  if q.cnt = 0 then
    (none, q)
  else
    (some (q.data.getD q.read_pos .xhci), { q with
      cnt := q.cnt - 1,
      read_pos := (q.read_pos + 1) % q.data.length })

/-- Embeds `xhci_interrupt_handler` (main.rs lines 429-433): pushes
`Message::Xhci`, discarding the result (`let _ = lock.push(...)`). -/
def xhci_interrupt_handler (q : MessageQueue) : MessageQueue :=
  (q.push .xhci).2

/-- The kernel state touched by one iteration of the `KernelMain2` event
loop: the message queue, the pending `TIMER_ELAPSED` counter, and the timer
manager.  (Graphics, USB processing and the task contexts are outside the
modelled state; none of them feeds back into the switch decision.) -/
structure KernelState where
  events : MessageQueue
  timer_elapsed : Nat
  timer : TimerManager
deriving DecidableEq, Repr, Inhabited

/-- Observable outcome of one loop iteration: `ran = false` is the idle arm
(queue empty and no elapsed ticks: enable interrupts and `hlt`);
`task_timer_fired` is the value returned by `timer::on_lapic_interrupt`
(false when the tick call was skipped); `switched` records whether
`switch_context(&TASK_B_CTX, &mut TASK_A_CTX)` was executed. -/
structure IterOutcome where
  ran : Bool
  task_timer_fired : Bool
  switched : Bool
deriving DecidableEq, Repr, Inhabited

/-- Embeds the message dispatch arm of the loop (main.rs lines 329-345):
`TimerTimeout(1)` re-arms timer 1 at `tick + 200`, `TimerTimeout(2)` re-arms
timer 2 at `tick + 600`; `Xhci` runs the USB event drain (no effect on the
modelled state); other values do nothing. -/
def dispatchMessage (timer : TimerManager) : Option Message → TimerManager
  | some (.timerTimeout 1) => timer.add_timer (timer.tick + 200) 1
  | some (.timerTimeout 2) => timer.add_timer (timer.tick + 600) 2
  | _ => timer

/-- Embeds one iteration of the `loop` in `KernelMain2` (main.rs lines
300-348).  Timer messages produced by `TimerManager::tick` are pushed into
`EVENTS` inside the tick call (drops on a full queue), before the single
`pop`.  `switch_context` is the last statement of the non-idle path and is
executed unconditionally: the boolean returned by
`timer::on_lapic_interrupt(elapsed)` is discarded (main.rs line 310). -/
def loopIter (s : KernelState) : KernelState × IterOutcome :=
  if s.events.cnt = 0 ∧ s.timer_elapsed = 0 then
    (s, { ran := false, task_timer_fired := false, switched := false })
  else
    let elapsed := s.timer_elapsed
    let tickRes : Bool × TimerManager × List Nat :=
      if 0 < elapsed then
        let r := s.timer.tickElapsed elapsed
        (r.2.task_timer_fired, r.1, r.2.msgs)
      else
        (false, s.timer, [])
    let fired := tickRes.1
    let timer1 := tickRes.2.1
    let msgs := tickRes.2.2
    let events1 := msgs.foldl (fun q v => (q.push (.timerTimeout v)).2) s.events
    let popRes := events1.pop
    let timer2 := dispatchMessage timer1 popRes.1
    ({ events := popRes.2, timer_elapsed := 0, timer := timer2 },
     { ran := true, task_timer_fired := fired, switched := true })

/-! ## Bitmap frame allocator (src/kernel/src/memory_manager.rs lines 58-143)

The bitmap is one bit per 4 KiB frame (`true` = in use); `available_range`
is the `(first, last + 1)` managed frame window.  The source indexes a fixed
`[u8; FRAME_COUNT / 8]` array; we model the bitmap as a `List Bool` read
through `getD _ false` (the array is zero-initialised).  `usize` arithmetic
is modelled by `Nat`; the guard subtraction `range.1 - nframes` agrees with
the source whenever `nframes ≤ range.1`, which the theorems assume. -/

structure BitMapMemoryManager where
  alloc_map : List Bool
  available_range : Nat × Nat
deriving DecidableEq, Repr, Inhabited

/-- Embeds `BitMapMemoryManager::get_bit`. -/
def BitMapMemoryManager.get_bit (m : BitMapMemoryManager) (frame : Nat) : Bool :=
  m.alloc_map.getD frame false

/-- Embeds `BitMapMemoryManager::set_bit(frame, true)` iterated by
`mark_allocated(start, nframes)`. -/
def BitMapMemoryManager.mark_allocated (m : BitMapMemoryManager) (start nframes : Nat) :
    BitMapMemoryManager :=
  match nframes with
  | 0 => m
  | n + 1 => ({ m with alloc_map := m.alloc_map.set start true } :
      BitMapMemoryManager).mark_allocated (start + 1) n

/-- Embeds the inner scan of `allocate`:
`while nfree < nframes && start + nfree < range.1 && !get_bit(start+nfree)`.
Returns the resulting `nfree`. -/
def freeRunLen (m : BitMapMemoryManager) (limit start : Nat) : Nat → Nat
  | 0 => 0
  | n + 1 =>
    if start < limit ∧ m.get_bit start = false then
      freeRunLen m limit (start + 1) n + 1
    else 0

/-- Embeds the outer loop of `BitMapMemoryManager::allocate` (memory_manager.rs
lines 115-132): `while start < range.1 - nframes` first-fit scan, advancing
by `nfree + 1` on failure. -/
def allocLoop (m : BitMapMemoryManager) (nframes start : Nat) : Option Nat :=
  if h : start < m.available_range.2 - nframes then
    let nfree := freeRunLen m m.available_range.2 start nframes
    if nfree = nframes then some start
    else allocLoop m nframes (start + nfree + 1)
  else none
termination_by m.available_range.2 - nframes - start
decreasing_by omega

/-- Embeds `BitMapMemoryManager::allocate(nframes)`: runs the scan from
`available_range.0`; on success marks the run allocated. -/
def BitMapMemoryManager.allocate (m : BitMapMemoryManager) (nframes : Nat) :
    Option Nat × BitMapMemoryManager :=
  match allocLoop m nframes m.available_range.1 with
  | some s => (some s, m.mark_allocated s nframes)
  | none => (none, m)

/-- A run of `nframes` free frames starting at `p` that the source's scan
can accept: every scanned bit lies strictly below `available_range.1` and
the loop guard requires `p + nframes < available_range.1` (note the strict
bound: the guard is `start < range.1 - nframes`). -/
def canAlloc (m : BitMapMemoryManager) (nframes p : Nat) : Prop :=
  p + nframes < m.available_range.2 ∧ ∀ i < nframes, m.get_bit (p + i) = false

instance (m : BitMapMemoryManager) (nframes p : Nat) : Decidable (canAlloc m nframes p) := by
  unfold canAlloc; infer_instance

/-- The claim's notion of a run of free frames "inside the available_range
window", including one ending at the last managed frame. -/
def windowRun (m : BitMapMemoryManager) (nframes p : Nat) : Prop :=
  m.available_range.1 ≤ p ∧ p + nframes ≤ m.available_range.2 ∧
    ∀ i < nframes, m.get_bit (p + i) = false

instance (m : BitMapMemoryManager) (nframes p : Nat) : Decidable (windowRun m nframes p) := by
  unfold windowRun; infer_instance

/-! ## Slab object allocator (src/kernel/src/memory_manager.rs lines 300-345) -/

def BLOCK_SZ : List Nat := [64, 128, 256, 512, 1024, 2048]

/-- Embeds `FreeList::pop_filter`: detach and return the first free object
satisfying the predicate, or null (`none`) leaving the list unchanged. -/
def pop_filter : List Nat → (Nat → Bool) → Option Nat × List Nat
  | [], _ => (none, [])
  | x :: xs, p =>
    if p x then (some x, xs)
    else
      let r := pop_filter xs p
      (r.1, x :: r.2)

/-- Embeds `ObjectAllocator { pages: [&Mutex<PageHeader>; 6] }`: one
free-list of object addresses per size class. -/
structure ObjectAllocator where
  pages : List (List Nat)
deriving DecidableEq, Repr, Inhabited

/-- Embeds `ObjectAllocator::alloc` (memory_manager.rs lines 320-333): select
the first size class with `block_size > layout.size()` (null if none), then
pop the first suitably aligned object of that class's page. -/
def ObjectAllocator.alloc (a : ObjectAllocator) (size align : Nat) :
    Option Nat × ObjectAllocator :=
  match BLOCK_SZ.findIdx? (fun sz => size < sz) with
  | none => (none, a)
  | some index =>
    let page := a.pages.getD index []
    let r := pop_filter page (fun ptr => ptr % align = 0)
    (r.1, { pages := a.pages.set index r.2 })

/-! ## xHCI producer ring (src/kernel/src/usb/ring.rs lines 18-98)

A ring slot holds either the zero-initialised default TRB, a written TRB
(with the cycle bit the producer stamped on it), or the Link TRB at the last
index.  `ProducerRing::new(size)` places a Link TRB (cycle bit 0) at
`size - 1`; pointers returned by `push` are modelled as ring indices. -/

inductive XhciError where
  | ringIsFull
deriving DecidableEq, Repr

inductive RingSlot (α : Type) where
  | empty
  | trb (payload : α) (cycle : Bool)
  | link (cycle : Bool)
deriving DecidableEq, Repr, Inhabited

structure ProducerRing (α : Type) where
  data : List (RingSlot α)
  cycle_state : Bool
  enque : Nat
  deque : Nat
deriving DecidableEq, Repr, Inhabited

/-- Embeds `ProducerRing::new(size)`. -/
def ProducerRing.new (α : Type) (size : Nat) : ProducerRing α :=
  { data := List.replicate (size - 1) RingSlot.empty ++ [RingSlot.link false],
    cycle_state := true, enque := 0, deque := 0 }

/-- Embeds `ProducerRing::next_ptr`: skip over the Link TRB slot. -/
def ProducerRing.next_ptr (r : ProducerRing α) (ptr : Nat) : Nat :=
  if ptr + 1 = r.data.length - 1 then 0 else ptr + 1

/-- Embeds `ProducerRing::advance_enque_ptr`: on reaching the Link slot,
stamp the current cycle bit on the Link TRB, wrap to 0 and toggle the
producer cycle state. -/
def ProducerRing.advance_enque_ptr (r : ProducerRing α) : ProducerRing α :=
  let e := r.enque + 1
  if e = r.data.length - 1 then
    { r with data := r.data.set e (RingSlot.link r.cycle_state),
             enque := 0, cycle_state := !r.cycle_state }
  else
    { r with enque := e }

/-- Embeds `ProducerRing::push` (ring.rs lines 64-76): full when
`next_ptr(enque) == deque`; otherwise stamp the cycle bit, write at `enque`,
return a pointer (index) to the written TRB and advance. -/
def ProducerRing.push (r : ProducerRing α) (trb : α) :
    Except XhciError (Nat × ProducerRing α) :=
  if r.next_ptr r.enque = r.deque then
    .error .ringIsFull
  else
    let idx := r.enque
    let r1 := { r with data := r.data.set idx (RingSlot.trb trb r.cycle_state) }
    .ok (idx, r1.advance_enque_ptr)

/-- Number of TRB slots available to data, i.e. the ring size minus the Link
TRB slot. -/
def ProducerRing.capacity (r : ProducerRing α) : Nat :=
  r.data.length - 1

/-- Outcome (`true` = `Ok`) of `k` consecutive pushes, in order, with no
intervening dequeue-pointer updates. -/
def pushResults (r : ProducerRing Unit) : Nat → List Bool
  | 0 => []
  | k + 1 =>
    match r.push () with
    | .ok (_, r') => true :: pushResults r' k
    | .error _ => false :: pushResults r k

/-! ## Control requests on the transfer ring
(src/kernel/src/usb/ring/transfer.rs)

`TransferRingSet::control_request` operates exclusively on the ring stored
at key `(slot_id, 1)` (endpoint 1, the default control pipe); the model
takes that ring as an explicit argument and returns it updated.  TRBs are
modelled at the field level used by the source setters. -/

inductive TransferType where
  | no
  | typeOut
  | typeIn
deriving DecidableEq, Repr, Inhabited

inductive TrbDirection where
  | dirOut
  | dirIn
deriving DecidableEq, Repr, Inhabited

/-- Fields of a SETUP stage TRB as set by `control_request`. -/
structure SetupStageTRB where
  request_type : Nat
  request : Nat
  value : Nat
  index : Nat
  transfer_type : TransferType
  length : Nat
  interrupt_on_completion : Bool
deriving DecidableEq, Repr, Inhabited

/-- Fields of a DATA stage TRB as set by `control_request`. -/
structure DataStageTRB where
  data_buffer_pointer : Nat
  trb_transfer_length : Nat
  td_size : Nat
  direction : TrbDirection
  interrupt_on_short_packet : Bool
  interrupt_on_completion : Bool
deriving DecidableEq, Repr, Inhabited

/-- Fields of a STATUS stage TRB as set by `control_request`
(`StatusStage::new()` has direction out; `set_direction()` makes it in). -/
structure StatusStageTRB where
  direction : TrbDirection
  interrupt_on_completion : Bool
deriving DecidableEq, Repr, Inhabited

inductive TransferTRB where
  | setupStage (t : SetupStageTRB)
  | dataStage (t : DataStageTRB)
  | statusStage (t : StatusStageTRB)
deriving DecidableEq, Repr, Inhabited

/-- Embeds `trb::transfer::Allowed::interrupt_on_completion`. -/
def TransferTRB.interrupt_on_completion : TransferTRB → Bool
  | .setupStage t => t.interrupt_on_completion
  | .dataStage t => t.interrupt_on_completion
  | .statusStage t => t.interrupt_on_completion

/-- Embeds `enum ControlRequestType` (transfer.rs lines 13-18; the source
spells it `SetConfigutation`). -/
inductive ControlRequestType where
  | getDescriptor
  | setConfigutation
  | setProtocol
  | setInterface
deriving DecidableEq, Repr, Inhabited

/-- Embeds `ControlRequestType::get_actual_value` (transfer.rs lines 25-34):
`(bmRequestType, bRequest)`. -/
def ControlRequestType.get_actual_value : ControlRequestType → Nat × Nat
  | .getDescriptor => (0b10000000, 6)
  | .setConfigutation => (0b00000000, 9)
  | .setProtocol => (0b00100001, 11)
  | .setInterface => (0b00000001, 11)

inductive TransferDirection where
  | hostToDevice
  | deviceToHost
deriving DecidableEq, Repr, Inhabited

/-- Embeds `struct SetupData`. -/
structure SetupData where
  request_type : ControlRequestType
  value : Nat
  index : Nat
  length : Nat
deriving DecidableEq, Repr, Inhabited

/-- Embeds `TransferRingSet::push_transfer_trb` on the given ring: push the
TRB; when `interrupt_on_completion` (or, for a DATA stage,
`interrupt_on_short_packet`) is set, register a oneshot listener keyed by
the written TRB's address and hand back its receiver (modelled by the
registered address). Returns `(ring', written index, armed listener)`. -/
def push_transfer_trb (ring : ProducerRing TransferTRB) (trb : TransferTRB) :
    Except XhciError (ProducerRing TransferTRB × Nat × Option Nat) :=
  match ring.push trb with
  | .error e => .error e
  | .ok (idx, r') =>
    let int_on_short_packet :=
      match trb with
      | .dataStage t => t.interrupt_on_short_packet
      | _ => false
    if trb.interrupt_on_completion || int_on_short_packet then
      .ok (r', idx, some idx)
    else
      .ok (r', idx, none)

/-- Result of `control_request`: the updated EP1 ring, the TRBs written (in
push order, with their ring indices), the doorbells rung (doorbell register
index = slot, doorbell target), and the address whose oneshot receiver the
call returns. -/
structure ControlRequestOut where
  ring : ProducerRing TransferTRB
  writes : List (Nat × TransferTRB)
  doorbells : List (Nat × Nat)
  armed : Option Nat
deriving DecidableEq, Repr, Inhabited

/-- Embeds `TransferRingSet::control_request` (transfer.rs lines 72-154),
with `data` the (abstract) address of the caller's buffer.  The function
touches only the ring at `(slot_id, 1)`, passed and returned explicitly. -/
def control_request (slot_id : Nat) (setup : SetupData) (data : Option Nat)
    (ring : ProducerRing TransferTRB) : Except XhciError ControlRequestOut :=
  let rt := setup.request_type.get_actual_value
  let req_type := rt.1
  let req := rt.2
  let direction_bit :=
    if req_type / 128 = 1 then TransferDirection.deviceToHost
    else TransferDirection.hostToDevice
  let dirs : TransferType × TrbDirection × TransferDirection :=
    match direction_bit, setup.length with
    | .hostToDevice, 0 => (.no, .dirOut, .deviceToHost)
    | .hostToDevice, _ => (.typeOut, .dirOut, .deviceToHost)
    | .deviceToHost, 0 => (.no, .dirIn, .deviceToHost)
    | .deviceToHost, _ => (.typeIn, .dirIn, .hostToDevice)
  let setup_trb : SetupStageTRB :=
    { request_type := req_type, request := req, value := setup.value,
      index := setup.index, transfer_type := dirs.1, length := setup.length,
      interrupt_on_completion := true }
  let status_trb : StatusStageTRB :=
    { direction := if dirs.2.2 = TransferDirection.deviceToHost
        then TrbDirection.dirIn else TrbDirection.dirOut,
      interrupt_on_completion := true }
  if setup.length = 0 then
    match push_transfer_trb ring (.setupStage setup_trb) with
    | .error e => .error e
    | .ok (r1, i1, armed1) =>
      match push_transfer_trb r1 (.statusStage status_trb) with
      | .error e => .error e
      | .ok (r2, i2, _) =>
        .ok { ring := r2,
              writes := [(i1, .setupStage setup_trb), (i2, .statusStage status_trb)],
              doorbells := [(slot_id, 1)],
              armed := armed1 }
  else
    let data_trb : DataStageTRB :=
      { data_buffer_pointer := data.getD 0, trb_transfer_length := setup.length,
        td_size := 0, direction := dirs.2.1,
        interrupt_on_short_packet := true, interrupt_on_completion := true }
    match push_transfer_trb ring (.setupStage setup_trb) with
    | .error e => .error e
    | .ok (r1, i1, _) =>
      match push_transfer_trb r1 (.dataStage data_trb) with
      | .error e => .error e
      | .ok (r2, i2, armed2) =>
        match push_transfer_trb r2 (.statusStage status_trb) with
        | .error e => .error e
        | .ok (r3, i3, _) =>
          .ok { ring := r3,
                writes := [(i1, .setupStage setup_trb), (i2, .dataStage data_trb),
                           (i3, .statusStage status_trb)],
                doorbells := [(slot_id, 1)],
                armed := armed2 }

/-! ## Configuration descriptor readback (src/kernel/src/usb/usbd.rs
lines 574-625)

`get_config_descriptor(slot, i, buf_sz)` allocates a zeroed `buf_sz`-byte
buffer and issues `GET_DESCRIPTOR(CONFIGURATION, i)` with `wLength =
buf_sz`; the device fills the first `min(buf_sz, wTotalLength)` bytes of it
with its configuration-descriptor block.  We model the device's block as
`deviceConf : List Nat` (one entry per byte, with `wTotalLength =
deviceConf.length` encoded little-endian at bytes 2..4). -/

/-- The buffer contents after the transfer: the first `buf_sz` bytes of the
device's block, zero-padded to `buf_sz` when the block is shorter. -/
def configTransfer (deviceConf : List Nat) (buf_sz : Nat) : List Nat :=
  deviceConf.take buf_sz ++ List.replicate (buf_sz - deviceConf.length) 0

/-- wTotalLength as the source reads it:
`u16::from_le_bytes([buf[2], buf[3]])`. -/
def readTotalLen (buf : List Nat) : Nat :=
  buf.getD 2 0 + 256 * buf.getD 3 0

/-- Embeds `UsbDriver::get_config_descriptor` (usbd.rs lines 574-595):
`Ok(Err(total_len))` — modelled `.error total_len` — asks the caller to
reissue with `total_len`; it is returned exactly when `total_len < buf_sz`.
Otherwise the probe buffer itself is returned. -/
def get_config_descriptor (deviceConf : List Nat) (buf_sz : Nat) :
    Except Nat (List Nat) :=
  let buf := configTransfer deviceConf buf_sz
  let total_len := readTotalLen buf
  if total_len < buf_sz then .error total_len else .ok buf

/-- Embeds the buffer-selection part of `UsbDriver::read_config` (usbd.rs
lines 597-608): probe with `buf_sz`, and on `Err(total_size)` reissue with
`total_size` (the source `.unwrap()`s that second result). -/
def read_config_buf (deviceConf : List Nat) (buf_sz : Nat) : Option (List Nat) :=
  match get_config_descriptor deviceConf buf_sz with
  | .ok desc => some desc
  | .error total_size =>
    match get_config_descriptor deviceConf total_size with
    | .ok desc => some desc
    | .error _ => none

/-- Embeds the parse window of `read_config` (usbd.rs lines 612-613): the
descriptor walk runs from `buf.as_ptr()` to `buf.as_ptr().add(total_len)`
with `total_len` re-read from the chosen buffer — `total_len` bytes,
regardless of the buffer's actual length. -/
def parseWindowLen (buf : List Nat) : Nat :=
  readTotalLen buf

/-! ## Broadcast latch (src/kernel/src/usb/runtime.rs lines 174-214)

`BroadcastReceiver`/`BroadcastSender` share `{flag: bool, wakers: Vec}`
behind `Arc<Mutex<_>>`; every receiver future polls the same latch state.
Wakers are modelled by abstract ids. -/

inductive Poll where
  | ready
  | pending
deriving DecidableEq, Repr, Inhabited

structure BroadcastLatch where
  flag : Bool
  wakers : List Nat
deriving DecidableEq, Repr, Inhabited

/-- Embeds `new_broadcast_channel()`'s shared state. -/
def BroadcastLatch.new : BroadcastLatch := { flag := false, wakers := [] }

/-- Embeds `<BroadcastReceiver as Future>::poll` (runtime.rs lines 180-190):
ready iff the flag is set; otherwise store the caller's waker. -/
def BroadcastLatch.poll (s : BroadcastLatch) (w : Nat) : Poll × BroadcastLatch :=
  if s.flag then (.ready, s)
  else (.pending, { s with wakers := s.wakers ++ [w] })

/-- Embeds `BroadcastSender::send` (runtime.rs lines 197-202): set the flag
and drain the wakers; returns the new state and the woken wakers. -/
def BroadcastLatch.send (s : BroadcastLatch) : BroadcastLatch × List Nat :=
  ({ flag := true, wakers := [] }, s.wakers)

/-- Poll the latch once per waker in `ws`, in order, threading the state;
returns the poll results and the final state. -/
def pollSeq (s : BroadcastLatch) : List Nat → List Poll × BroadcastLatch
  | [] => ([], s)
  | w :: ws =>
    let r := s.poll w
    let rs := pollSeq r.2 ws
    (r.1 :: rs.1, rs.2)

/-! ## Concrete instances used by the theorems below -/

/-- A full kernel message queue at the source capacity `N = 1024`. -/
def fullQueue : MessageQueue :=
  { data := List.replicate 1024 .xhci, read_pos := 0, write_pos := 0, cnt := 1024 }

/-- Kernel state whose queue holds one `Xhci` message while no timer ticks
are pending (`TIMER_ELAPSED = 0`). -/
def xhciOnlyState : KernelState :=
  { events := ((MessageQueue.new 1024).push .xhci).2,
    timer_elapsed := 0,
    timer := initialize_timer }

/-- A fresh EP1 transfer ring of the source's ring size (32). -/
def ep1Ring : ProducerRing TransferTRB := ProducerRing.new TransferTRB 32

/-- The `SetupData` of `SET_PROTOCOL(value=0, index=0)` with no data stage. -/
def setProtocolSetup : SetupData :=
  { request_type := .setProtocol, value := 0, index := 0, length := 0 }

/-- The result of the SetProtocol control request on a fresh EP1 ring of
slot 3. -/
def setProtocolOut : ControlRequestOut :=
  match control_request 3 setProtocolSetup none ep1Ring with
  | .ok out => out
  | .error _ => default

/-- Bitmap state with window `[1, 3)`: frame 1 allocated, frame 2 (the last
managed frame) free. -/
def lastFrameFreeMgr : BitMapMemoryManager :=
  { alloc_map := [false, true, false], available_range := (1, 3) }

/-- Bitmap state with window `[1, 4)` and frames 1-3 free. -/
def allFreeMgr : BitMapMemoryManager :=
  { alloc_map := [false, false, false, false], available_range := (1, 4) }

/-- A slab allocator whose six pages each still hold free objects (at
64-byte spacing from 0x1000). -/
def stockedAllocator : ObjectAllocator :=
  { pages := [[0x1000, 0x1040], [0x2000, 0x2080], [0x3000], [0x4000],
              [0x5000], [0x6000]] }

/-- A configuration-descriptor block of 100 bytes (`wTotalLength = 100` at
bytes 2..4), larger than the 64-byte probe. -/
def conf100 : List Nat := 9 :: 2 :: 100 :: 0 :: List.replicate 96 0

/-- A configuration-descriptor block of 34 bytes (`wTotalLength = 34`),
smaller than the 64-byte probe. -/
def conf34 : List Nat := 9 :: 2 :: 34 :: 0 :: List.replicate 30 0

/-- A timer-operation sequence using only non-sentinel values. -/
def benignTimerOps : List TimerOp :=
  [TimerOp.tickOp 3, TimerOp.addTimerOp 10 1, TimerOp.tickOp 5]

/-! ## Supporting lemmas -/

theorem freeRunLen_le (m : BitMapMemoryManager) (limit start n : Nat) :
    freeRunLen m limit start n ≤ n := by
  induction n generalizing start with
  | zero => simp [freeRunLen]
  | succ k ih =>
    unfold freeRunLen
    split
    · exact Nat.succ_le_succ (ih (start + 1))
    · omega

theorem freeRunLen_free (m : BitMapMemoryManager) (limit start n : Nat) :
    ∀ i < freeRunLen m limit start n,
      start + i < limit ∧ m.get_bit (start + i) = false := by
  induction n generalizing start with
  | zero => intro i hi; simp [freeRunLen] at hi
  | succ k ih =>
    intro i hi
    unfold freeRunLen at hi
    by_cases hc : start < limit ∧ m.get_bit start = false
    · rw [if_pos hc] at hi
      cases i with
      | zero => simpa using hc
      | succ j =>
        have hj := ih (start + 1) j (by omega)
        have he : start + (j + 1) = (start + 1) + j := by omega
        rw [he]
        exact hj
    · rw [if_neg hc] at hi; omega

theorem freeRunLen_stop (m : BitMapMemoryManager) (limit start n : Nat)
    (h : freeRunLen m limit start n < n) :
    ¬ (start + freeRunLen m limit start n < limit
       ∧ m.get_bit (start + freeRunLen m limit start n) = false) := by
  induction n generalizing start with
  | zero => omega
  | succ k ih =>
    unfold freeRunLen at h ⊢
    by_cases hc : start < limit ∧ m.get_bit start = false
    · rw [if_pos hc] at h ⊢
      have hrec := ih (start + 1) (by omega)
      intro hx
      apply hrec
      have he : start + (freeRunLen m limit (start + 1) k + 1)
          = (start + 1) + freeRunLen m limit (start + 1) k := by omega
      rw [he] at hx
      exact hx
    · rw [if_neg hc] at h ⊢
      simpa using hc

/-- When the inner scan stops short of `nframes` free bits, no acceptable
run can start anywhere in the skipped span `[start, start + nfree]`: any
such run would have to cross the blocking position `start + nfree`. -/
theorem canAlloc_not_in_skip (m : BitMapMemoryManager) (n start : Nat)
    (hk : freeRunLen m m.available_range.2 start n < n) :
    ∀ q, start ≤ q → q ≤ start + freeRunLen m m.available_range.2 start n →
      ¬ canAlloc m n q := by
  intro q hq1 hq2 hca
  obtain ⟨hlt, hfree⟩ := hca
  have hstop := freeRunLen_stop m m.available_range.2 start n hk
  by_cases hb : start + freeRunLen m m.available_range.2 start n < m.available_range.2
  · have hbit : ¬ m.get_bit (start + freeRunLen m m.available_range.2 start n) = false :=
      fun hB => hstop ⟨hb, hB⟩
    have hi : (start + freeRunLen m m.available_range.2 start n) - q < n := by omega
    have hfq := hfree _ hi
    have he : q + ((start + freeRunLen m m.available_range.2 start n) - q)
        = start + freeRunLen m m.available_range.2 start n := by omega
    rw [he] at hfq
    exact hbit hfq
  · omega

/-- First-fit correctness of the `allocate` scan, relative to its actual
guard `start < range.1 - nframes`: starting from `start` the loop returns
`none` exactly when no acceptable run begins at or after `start`, and a
returned start is the acceptable run with the smallest starting frame. -/
theorem allocLoop_spec (m : BitMapMemoryManager) (n start : Nat) :
    (allocLoop m n start = none ↔ ∀ p, start ≤ p → ¬ canAlloc m n p)
    ∧ (∀ p, allocLoop m n start = some p →
        start ≤ p ∧ canAlloc m n p ∧ ∀ q, start ≤ q → q < p → ¬ canAlloc m n q) := by
  induction start using allocLoop.induct m n with
  | case1 start h nfree heq =>
    have heq' : freeRunLen m m.available_range.2 start n = n := heq
    have hsome : allocLoop m n start = some start := by
      rw [allocLoop, dif_pos h]
      simp only [heq', if_pos]
    have hca : canAlloc m n start := by
      constructor
      · omega
      · intro i hi
        exact (freeRunLen_free m m.available_range.2 start n i (by omega)).2
    refine ⟨⟨?_, ?_⟩, ?_⟩
    · intro h0; rw [hsome] at h0; exact absurd h0 (by simp)
    · intro hall; exact absurd hca (hall start (Nat.le_refl _))
    · intro p hp
      rw [hsome] at hp
      have hps : start = p := by simpa using hp
      subst hps
      exact ⟨Nat.le_refl _, hca, fun q hq1 hq2 => absurd (Nat.lt_of_lt_of_le hq2 hq1)
        (lt_irrefl _)⟩
  | case2 start h nfree hne ih =>
    have hle := freeRunLen_le m m.available_range.2 start n
    have hk : freeRunLen m m.available_range.2 start n < n :=
      Nat.lt_of_le_of_ne hle hne
    have hrec : allocLoop m n start
        = allocLoop m n (start + freeRunLen m m.available_range.2 start n + 1) := by
      rw [allocLoop, dif_pos h]
      simp only [if_neg (hne : ¬ freeRunLen m m.available_range.2 start n = n)]
    have hskip := canAlloc_not_in_skip m n start hk
    obtain ⟨ih1, ih2⟩ := ih
    refine ⟨?_, ?_⟩
    · rw [hrec]
      constructor
      · intro h0
        have hall := ih1.mp h0
        intro p hp hca
        by_cases hple : p ≤ start + freeRunLen m m.available_range.2 start n
        · exact hskip p hp hple hca
        · exact hall p (by omega) hca
      · intro hall
        apply ih1.mpr
        intro p hp
        exact hall p (by omega)
    · intro p hp
      rw [hrec] at hp
      obtain ⟨hp1, hp2, hp3⟩ := ih2 p hp
      refine ⟨by omega, hp2, ?_⟩
      intro q hq1 hq2
      by_cases hqle : q ≤ start + freeRunLen m m.available_range.2 start n
      · exact hskip q hq1 hqle
      · exact hp3 q (by omega) hq2
  | case3 start h =>
    have hnone : allocLoop m n start = none := by
      rw [allocLoop, dif_neg h]
    refine ⟨⟨?_, ?_⟩, ?_⟩
    · intro _
      intro p hp hca
      obtain ⟨hpl, _⟩ := hca
      omega
    · intro _; exact hnone
    · intro p hp
      rw [hnone] at hp
      exact absurd hp (by simp)

/-- A latch whose flag is set answers every poll `ready` without touching
its state. -/
theorem pollSeq_flag_set (ws : List Nat) :
    pollSeq { flag := true, wakers := [] } ws
      = (List.replicate ws.length Poll.ready, { flag := true, wakers := [] }) := by
  induction ws with
  | nil => rfl
  | cons w ws ih => simp [pollSeq, BroadcastLatch.poll, ih, List.replicate]

/-! ## Claim theorems -/

set_option maxRecDepth 40000 in
/-- C1 counterexample: in the kernel-state whose queue holds one `Xhci`
message and whose `TIMER_ELAPSED` is 0, the loop iteration reports
`task_timer_fired = false` (no task timer expired — the tick call is even
skipped) yet still performs the context switch to task B, refuting
"a context switch is performed if and only if task_timer_fired". -/
theorem c1_counterexample :
    (loopIter xhciOnlyState).2.task_timer_fired = false
    ∧ (loopIter xhciOnlyState).2.switched = true := by
  decide

set_option maxRecDepth 4000 in
/-- C1 amended: `switch_context(&TASK_B_CTX, &mut TASK_A_CTX)` is executed
in every iteration that processes work (queue non-empty or elapsed timer
ticks pending), unconditionally — the `task_timer_fired` result of the tick
is discarded; only the idle arm (empty queue, `TIMER_ELAPSED = 0`, `hlt`)
skips the switch. -/
theorem c1_switch_every_nonidle_iteration (s : KernelState) :
    (loopIter s).2.switched = (loopIter s).2.ran := by
  unfold loopIter
  split <;> rfl

/-- C2 counterexample: after `initialize_timer()` (tick 0, task-timer
enqueued at timeout 2), `tick(2)` returns `task_timer_fired = false` — not
`true` as the claim states — because firing requires `timeout < tick`
strictly and `2 < 2` fails. -/
theorem c2_counterexample :
    (initialize_timer.tickElapsed 2).2.task_timer_fired = false := by
  rw [TimerManager.tickElapsed, tickLoop]
  simp [initialize_timer, TimerManager.new, TimerManager.add_timer,
    TASK_TIMER_PERIOD, TASK_TIMER_VALUE, TIMER_FREQ, popMin]

/-- C2 amended: with `TASK_TIMER_PERIOD = 2` and initialisation at tick 0,
`tick(2)` returns false and leaves the task-timer at timeout 2 (a timer
fires only when the tick has strictly passed its timeout); the subsequent
`tick(1)` returns true and re-enqueues the task-timer at timeout `3 + 2 =
5`; the `tick(1)` after that returns false. -/
theorem c2_task_timer_trace :
    (initialize_timer.tickElapsed 2).2.task_timer_fired = false
    ∧ (initialize_timer.tickElapsed 2).1
        = { tick := 2, timers := [{ timeout := 2, value := TASK_TIMER_VALUE }] }
    ∧ (({ tick := 2, timers := [{ timeout := 2, value := TASK_TIMER_VALUE }] } :
          TimerManager).tickElapsed 1).2.task_timer_fired = true
    ∧ (({ tick := 2, timers := [{ timeout := 2, value := TASK_TIMER_VALUE }] } :
          TimerManager).tickElapsed 1).1
        = { tick := 3, timers := [{ timeout := 5, value := TASK_TIMER_VALUE }] }
    ∧ (({ tick := 3, timers := [{ timeout := 5, value := TASK_TIMER_VALUE }] } :
          TimerManager).tickElapsed 1).2.task_timer_fired = false := by
  refine ⟨?_, ?_, ?_, ?_, ?_⟩
  · rw [TimerManager.tickElapsed, tickLoop]
    simp [initialize_timer, TimerManager.new, TimerManager.add_timer,
      TASK_TIMER_PERIOD, TASK_TIMER_VALUE, TIMER_FREQ, popMin]
  · rw [TimerManager.tickElapsed, tickLoop]
    simp [initialize_timer, TimerManager.new, TimerManager.add_timer,
      TASK_TIMER_PERIOD, TASK_TIMER_VALUE, TIMER_FREQ, popMin]
  · rw [TimerManager.tickElapsed, tickLoop]
    simp [TASK_TIMER_PERIOD, TASK_TIMER_VALUE, TIMER_FREQ, popMin]
  · rw [TimerManager.tickElapsed, tickLoop]
    simp [TASK_TIMER_PERIOD, TASK_TIMER_VALUE, TIMER_FREQ, popMin]
    rw [tickLoop]
    simp [popMin]
  · rw [TimerManager.tickElapsed, tickLoop]
    simp [TASK_TIMER_PERIOD, TASK_TIMER_VALUE, TIMER_FREQ, popMin]

set_option maxRecDepth 4000 in
/-- C3: the reissue condition of `get_config_descriptor` is inverted.  On a
100-byte configuration block (`wTotalLength = 100 > 64`) the 64-byte probe
returns `Ok` — no reissue happens — and `read_config` keeps the 64-byte
buffer while its descriptor walk covers `wTotalLength = 100` bytes, 36 of
them past the end of the valid buffer.  Conversely, on a 34-byte block
(`wTotalLength = 34 < 64`) the probe *does* request a reissue.  The claimed
behaviour — reissue exactly when the total length exceeds the probe, with
the parsed block covering `wTotalLength` valid bytes — fails in both
directions. -/
theorem c3_config_descriptor_reissue_inverted :
    conf100.length = 100 ∧ readTotalLen conf100 = 100
    ∧ get_config_descriptor conf100 64 = .ok (configTransfer conf100 64)
    ∧ (read_config_buf conf100 64).map List.length = some 64
    ∧ (read_config_buf conf100 64).map parseWindowLen = some 100
    ∧ conf34.length = 34
    ∧ get_config_descriptor conf34 64 = .error 34 :=
  ⟨rfl, rfl, rfl, rfl, rfl, rfl, rfl⟩

set_option maxRecDepth 4000 in
/-- C4: a SetProtocol control request (wValue=0, wIndex=0, wLength=0) on
slot `slot_id`, whenever it completes without `RingIsFull`, pushes exactly
two TRBs on the slot's EP1 transfer ring — a SETUP stage with
bmRequestType=0x21, bRequest=11, wValue=0, wIndex=0, wLength=0 and
transfer type No, followed by a STATUS stage with direction in and
interrupt-on-completion set — rings doorbell target 1 of the slot, and
returns the oneshot receiver armed on the SETUP TRB's address. -/
theorem c4_set_protocol_two_trbs (slot_id : Nat) (r : ProducerRing TransferTRB)
    (out : ControlRequestOut)
    (h : control_request slot_id setProtocolSetup none r = .ok out) :
    ∃ i1 i2,
      out.writes =
        [(i1, .setupStage
            { request_type := 0x21, request := 11, value := 0, index := 0,
              transfer_type := .no, length := 0, interrupt_on_completion := true }),
         (i2, .statusStage { direction := .dirIn, interrupt_on_completion := true })]
      ∧ out.doorbells = [(slot_id, 1)]
      ∧ out.armed = some i1 := by
  unfold control_request setProtocolSetup at h
  simp only [ControlRequestType.get_actual_value] at h
  norm_num at h
  cases hp1 : push_transfer_trb r (TransferTRB.setupStage
      { request_type := 33, request := 11, value := 0, index := 0,
        transfer_type := .no, length := 0, interrupt_on_completion := true }) with
  | error e => rw [hp1] at h; simp at h
  | ok trip =>
    obtain ⟨r1, i1, armed1⟩ := trip
    have harm : armed1 = some i1 := by
      unfold push_transfer_trb at hp1
      cases hp0 : r.push (TransferTRB.setupStage
          { request_type := 33, request := 11, value := 0, index := 0,
            transfer_type := .no, length := 0, interrupt_on_completion := true }) with
      | error e => rw [hp0] at hp1; simp at hp1
      | ok p =>
        obtain ⟨idx, r'⟩ := p
        rw [hp0] at hp1
        simp [TransferTRB.interrupt_on_completion] at hp1
        obtain ⟨ha, hb, hc⟩ := hp1
        subst hb
        exact hc.symm
    rw [hp1] at h
    simp only [] at h
    cases hp2 : push_transfer_trb r1 (TransferTRB.statusStage
        { direction := .dirIn, interrupt_on_completion := true }) with
    | error e => rw [hp2] at h; simp at h
    | ok trip2 =>
      obtain ⟨r2, i2, armed2⟩ := trip2
      rw [hp2] at h
      simp only [] at h
      refine ⟨i1, i2, ?_⟩
      have hout := h.symm
      cases hout
      exact ⟨rfl, rfl, by rw [harm]⟩

/-- C4 witness: the SetProtocol request on slot 3's fresh EP1 ring succeeds
and satisfies the theorem's conclusion. -/
theorem c4_set_protocol_two_trbs_witness :
    ∃ i1 i2,
      setProtocolOut.writes =
        [(i1, .setupStage
            { request_type := 0x21, request := 11, value := 0, index := 0,
              transfer_type := .no, length := 0, interrupt_on_completion := true }),
         (i2, .statusStage { direction := .dirIn, interrupt_on_completion := true })]
      ∧ setProtocolOut.doorbells = [(3, 1)]
      ∧ setProtocolOut.armed = some i1 :=
  c4_set_protocol_two_trbs 3 ep1Ring setProtocolOut (by rfl)

/-- C5 counterexample: with window `[1, 3)`, frame 1 allocated and frame 2
(the last managed frame) free, a run of 1 free frame exists inside the
window, yet `allocate(1)` returns `None`: the loop guard
`start < range.1 - nframes` never lets the scan reach a run that ends at
the last managed frame. -/
theorem c5_counterexample :
    windowRun lastFrameFreeMgr 1 2 ∧ (lastFrameFreeMgr.allocate 1).1 = none := by
  constructor
  · decide
  · have hnone : allocLoop lastFrameFreeMgr 1 lastFrameFreeMgr.available_range.1 = none := by
      rw [(allocLoop_spec lastFrameFreeMgr 1 lastFrameFreeMgr.available_range.1).1]
      intro p hp hca
      obtain ⟨h1, h2⟩ := hca
      simp only [lastFrameFreeMgr] at h1 hp
      have hp1 : p = 1 := by omega
      subst hp1
      have hb := h2 0 (by omega)
      simp [lastFrameFreeMgr, BitMapMemoryManager.get_bit] at hb
    unfold BitMapMemoryManager.allocate
    rw [hnone]

/-- C5 amended: for every bitmap state and every `n ≥ 1` (with
`n ≤ available_end` so that the source's `usize` guard matches the `Nat`
model), `allocate(n)` returns `None` exactly when no run of `n` consecutive
free frames *satisfying the scan's guard* `start + n < available_end`
exists at or after `available_start` — runs ending at the last managed
frame are excluded by the guard — and on success it returns the start of
the first such run. -/
theorem c5_allocate_first_fit (m : BitMapMemoryManager) (n : Nat)
    (h1 : 1 ≤ n) (h2 : n ≤ m.available_range.2) :
    ((m.allocate n).1 = none ↔ ¬ ∃ p, m.available_range.1 ≤ p ∧ canAlloc m n p)
    ∧ (∀ p, (m.allocate n).1 = some p →
        m.available_range.1 ≤ p ∧ canAlloc m n p
        ∧ ∀ q, m.available_range.1 ≤ q → q < p → ¬ canAlloc m n q) := by
  have hs := allocLoop_spec m n m.available_range.1
  cases halloc : allocLoop m n m.available_range.1 with
  | none =>
    have hall := hs.1.mp halloc
    have h1' : (m.allocate n).1 = none := by
      unfold BitMapMemoryManager.allocate
      rw [halloc]
    refine ⟨?_, ?_⟩
    · rw [h1']
      constructor
      · rintro _ ⟨p, hp, hca⟩
        exact hall p hp hca
      · intro _; rfl
    · intro p hp
      rw [h1'] at hp
      exact absurd hp (by simp)
  | some s =>
    obtain ⟨hle, hca, hmin⟩ := hs.2 s halloc
    have h1' : (m.allocate n).1 = some s := by
      unfold BitMapMemoryManager.allocate
      rw [halloc]
    refine ⟨?_, ?_⟩
    · rw [h1']
      constructor
      · intro h0; exact absurd h0 (by simp)
      · intro hno; exact absurd ⟨s, hle, hca⟩ hno
    · intro p hp
      rw [h1'] at hp
      have hsp : s = p := by simpa using hp
      subst hsp
      exact ⟨hle, hca, hmin⟩

/-- C5 witness: the first-fit characterisation instantiated on the all-free
window `[1, 4)` with `n = 1`. -/
theorem c5_allocate_first_fit_witness :
    ((allFreeMgr.allocate 1).1 = none
      ↔ ¬ ∃ p, allFreeMgr.available_range.1 ≤ p ∧ canAlloc allFreeMgr 1 p)
    ∧ (∀ p, (allFreeMgr.allocate 1).1 = some p →
        allFreeMgr.available_range.1 ≤ p ∧ canAlloc allFreeMgr 1 p
        ∧ ∀ q, allFreeMgr.available_range.1 ≤ q → q < p → ¬ canAlloc allFreeMgr 1 q) :=
  c5_allocate_first_fit allFreeMgr 1 (by decide) (by decide)

/-- C6: on a freshly-created producer ring of 32 entries (Link TRB in the
last slot, enqueue = dequeue = 0, 31 data slots of capacity), with no
dequeue-pointer updates, pushing capacity − 1 = 30 TRBs succeeds and the
push immediately after fails with `RingIsFull`. -/
theorem c6_producer_ring_full :
    (ProducerRing.new Unit 32).capacity = 31
    ∧ pushResults (ProducerRing.new Unit 32) ((ProducerRing.new Unit 32).capacity)
        = List.replicate ((ProducerRing.new Unit 32).capacity - 1) true ++ [false] := by
  decide

/-- C7 counterexample: the heap-content invariant fails for arbitrary
operation sequences: `add_timer(5, 0)` uses the sentinel value
`TASK_TIMER_VALUE = 0`, after which the task-timer entry is present twice
in the heap, not exactly once. -/
theorem c7_counterexample :
    sentinelCount (runTimerOps initialize_timer [TimerOp.addTimerOp 5 0]).timers = 2 := by
  decide

/-- C7 amended: after `initialize_timer()`, for every sequence of `tick`
and `add_timer` operations whose added values avoid the reserved sentinel
`TASK_TIMER_VALUE`: the task-timer entry is present exactly once in the
heap after every completed operation; the tick counter never decreases; and
every timer popped (fired or emitted) during a tick strictly precedes the
incremented tick (`timeout < tick`), never firing early. -/
theorem c7_timer_invariants (ops : List TimerOp)
    (hv : ∀ t v, TimerOp.addTimerOp t v ∈ ops → v ≠ TASK_TIMER_VALUE) :
    sentinelCount (runTimerOps initialize_timer ops).timers = 1
    ∧ (∀ op, (runTimerOps initialize_timer ops).tick
        ≤ (applyTimerOp (runTimerOps initialize_timer ops) op).tick)
    ∧ (∀ e tm, tm ∈ ((runTimerOps initialize_timer ops).tickElapsed e).2.popped →
        tm.timeout < (runTimerOps initialize_timer ops).tick + e) := by
  refine ⟨?_, ?_, ?_⟩
  · rw [runTimerOps_sentinel initialize_timer ops hv]
    decide
  · intro op
    cases op with
    | tickOp e => simp [applyTimerOp, TimerManager.tickElapsed]
    | addTimerOp t v => simp [applyTimerOp, TimerManager.add_timer]
  · intro e tm htm
    exact tickLoop_popped_overdue _ _ tm htm

/-- C7 witness: the invariants instantiated on a concrete benign operation
sequence. -/
theorem c7_timer_invariants_witness :
    sentinelCount (runTimerOps initialize_timer benignTimerOps).timers = 1
    ∧ (∀ op, (runTimerOps initialize_timer benignTimerOps).tick
        ≤ (applyTimerOp (runTimerOps initialize_timer benignTimerOps) op).tick)
    ∧ (∀ e tm, tm ∈ ((runTimerOps initialize_timer benignTimerOps).tickElapsed e).2.popped →
        tm.timeout < (runTimerOps initialize_timer benignTimerOps).tick + e) :=
  c7_timer_invariants benignTimerOps (by
    intro t v hm
    simp [benignTimerOps] at hm
    obtain ⟨_, rfl⟩ := hm
    decide)

/-- C8: after one `send()` on the broadcast latch, every subsequent poll of
any receiver future returns `Ready` immediately and stores no waker — the
state stays exactly the sent latch — for arbitrarily many awaits, with no
further `send()` required. -/
theorem c8_broadcast_latch_idempotent (s : BroadcastLatch) (ws : List Nat) :
    pollSeq (s.send).1 ws = (List.replicate ws.length Poll.ready, (s.send).1) := by
  simpa [BroadcastLatch.send] using pollSeq_flag_set ws

/-- C9: every allocation of size ≥ 2048 bytes returns the null pointer and
leaves the allocator untouched, regardless of how much memory is free: the
class search `find(sz > size)` matches no class (the largest class is
exactly 2048), so the free lists are never consulted. -/
theorem c9_alloc_large_returns_null (a : ObjectAllocator) (size align : Nat)
    (h : 2048 ≤ size) :
    a.alloc size align = (none, a) := by
  have hfind : BLOCK_SZ.findIdx? (fun sz => decide (size < sz)) = none := by
    have h1 : ¬ (size < 64) := by omega
    have h2 : ¬ (size < 128) := by omega
    have h3 : ¬ (size < 256) := by omega
    have h4 : ¬ (size < 512) := by omega
    have h5 : ¬ (size < 1024) := by omega
    have h6 : ¬ (size < 2048) := by omega
    simp [BLOCK_SZ, List.findIdx?, h1, h2, h3, h4, h5, h6]
  simp [ObjectAllocator.alloc, hfind]

/-- C9 witness: a 2048-byte request on an allocator with stocked free lists
still returns null with the allocator unchanged. -/
theorem c9_alloc_large_returns_null_witness :
    stockedAllocator.alloc 2048 1 = (none, stockedAllocator) :=
  c9_alloc_large_returns_null stockedAllocator 2048 1 (by decide)

/-- C10: when the kernel message queue already holds its full capacity
(1024) of messages, `push` returns `Err(())` and leaves the queue
completely unchanged (contents, read position, write position and count),
and a message posted by `xhci_interrupt_handler` in that state is silently
dropped. -/
theorem c10_full_queue_push_unchanged (q : MessageQueue) (msg : Message)
    (hcap : q.data.length = 1024) (hfull : q.cnt = 1024) :
    q.push msg = (.error (), q) ∧ xhci_interrupt_handler q = q := by
  have hc : q.cnt = q.data.length := by omega
  constructor
  · unfold MessageQueue.push
    rw [if_pos hc]
  · unfold xhci_interrupt_handler MessageQueue.push
    rw [if_pos hc]

/-- C10 witness: the full 1024-entry queue refuses a push unchanged. -/
theorem c10_full_queue_push_unchanged_witness :
    fullQueue.push .xhci = (.error (), fullQueue)
    ∧ xhci_interrupt_handler fullQueue = fullQueue :=
  c10_full_queue_push_unchanged fullQueue .xhci
    (by simp only [fullQueue, List.length_replicate]) rfl

end Mknm
